import Mathlib

/-!
Verification development for the concurrency-control and exclusion-decision
core of claude-python-guardrails.

The definitions below are a shallow embedding of `src/locking.rs`,
`src/lib.rs` (exclusion engine) and `src/automation.rs` (result/exit-code
mapping).  Pure Rust functions become Lean functions; filesystem and OS
effects (lock-file contents, file metadata, process liveness, path
canonicalization) become explicit parameters/oracles.  Machine integers are
modelled as `Nat`/`Int` with explicit range checks where the Rust code has
them (`u32`/`i64` parsing bounds, the `u64 as i64` cast).
-/

/- ### ASCII / string primitives used by the Rust code -/

/-- ASCII decimal digit test, as accepted by Rust's integer `FromStr`
implementations (only ASCII digits are accepted). -/
def isDigitChar (c : Char) : Bool := 48 ≤ c.toNat && c.toNat ≤ 57

/-- Whitespace as trimmed by Rust's `str::trim`: the Unicode `White_Space`
property — U+0009..U+000D, U+0020, U+0085, U+00A0, U+1680, U+2000..U+200A,
U+2028, U+2029, U+202F, U+205F and U+3000 (code points in decimal below). -/
def isRustWhitespace (c : Char) : Bool :=
  decide ((9 ≤ c.toNat ∧ c.toNat ≤ 13) ∨ c.toNat = 32 ∨ c.toNat = 133 ∨ c.toNat = 160 ∨
    c.toNat = 5760 ∨ (8192 ≤ c.toNat ∧ c.toNat ≤ 8202) ∨ c.toNat = 8232 ∨ c.toNat = 8233 ∨
    c.toNat = 8239 ∨ c.toNat = 8287 ∨ c.toNat = 12288)

/-- Trim whitespace from both ends of a character list. -/
def rustTrimList (cs : List Char) : List Char :=
  ((cs.dropWhile isRustWhitespace).reverse.dropWhile isRustWhitespace).reverse

/-- Model of Rust `str::trim`. -/
def rustTrim (s : String) : String := String.mk (rustTrimList s.data)

/-- Numeric value of a list of ASCII digits, most significant digit first. -/
def digitsToNat (cs : List Char) : Nat := cs.foldl (fun n c => n * 10 + (c.toNat - 48)) 0

/-- Parse a non-empty, all-ASCII-digit fragment. -/
def parseDigits (cs : List Char) : Option Nat :=
  match cs with
  | [] => none
  | _ => if cs.all isDigitChar then some (digitsToNat cs) else none

/-- Model of Rust `str::parse::<u32>`: optional leading `+`, one or more ASCII
digits, rejected on overflow past `u32::MAX`. -/
def parseU32 (s : String) : Option Nat :=
  match s.data with
  | [] => none
  | c :: rest =>
    let ds := if c.toNat = 43 then rest else c :: rest
    match parseDigits ds with
    | none => none
    | some n => if n < 4294967296 then some n else none

/-- Model of Rust `str::parse::<i64>`: optional leading sign, one or more
ASCII digits, rejected outside `[-2^63, 2^63 - 1]`. -/
def parseI64 (s : String) : Option Int :=
  match s.data with
  | [] => none
  | c :: rest =>
    if c.toNat = 43 then
      match parseDigits rest with
      | none => none
      | some n => if n ≤ 9223372036854775807 then some (n : Int) else none
    else if c.toNat = 45 then
      match parseDigits rest with
      | none => none
      | some n => if n ≤ 9223372036854775808 then some (-(n : Int)) else none
    else
      match parseDigits (c :: rest) with
      | none => none
      | some n => if n ≤ 9223372036854775807 then some (n : Int) else none

/-- Decimal digits of a natural number (fuel-based helper; `fuel ≥ n`
suffices). -/
def natDigitsAux : Nat → Nat → List Char
  | 0, _ => []
  | fuel + 1, n => if n = 0 then [] else natDigitsAux fuel (n / 10) ++ [Char.ofNat (48 + n % 10)]

/-- Decimal digits of a natural number, as produced by Rust's `Display`. -/
def natDigits (n : Nat) : List Char := if n = 0 then ['0'] else natDigitsAux n n

/-- Decimal rendering of an `i64`, as produced by Rust's `Display`
(used by the `format!` and `to_string` calls in `acquire`/`release`). -/
def intDigits (i : Int) : List Char :=
  if i < 0 then '-' :: natDigits i.natAbs else natDigits i.toNat

/-- Decimal rendering of an `i64` as a string. -/
def intToDecimal (i : Int) : String := String.mk (intDigits i)

/-- Split a character list at every occurrence of `sep`; always returns at
least one (possibly empty) fragment. -/
def splitOnChar (sep : Char) : List Char → List (List Char)
  | [] => [[]]
  | c :: rest =>
    match splitOnChar sep rest with
    | [] => []
    | q :: qs => if c = sep then [] :: q :: qs else (c :: q) :: qs

/-- Strip a single trailing carriage return, if present. -/
def stripCr (cs : List Char) : List Char :=
  if cs.getLast? = some '\r' then cs.dropLast else cs

/-- Model of Rust `str::lines`: split at `\n` terminators, strip one `\r`
preceding each terminator, and drop the trailing empty fragment produced by a
terminator at the very end of the string (so `""` has no lines and a final
unterminated line keeps any trailing `\r`). -/
def rustLines (s : String) : List String :=
  match (splitOnChar '\n' s.data).reverse with
  | [] => []
  | lastPiece :: revInit =>
    let terminated := (revInit.reverse.map stripCr).map String.mk
    if lastPiece = [] then terminated else terminated ++ [String.mk lastPiece]

/- ### chrono and integer-cast models -/

/-- Smallest `i64` second count accepted by chrono's
`DateTime::from_timestamp` (midnight of `NaiveDate::MIN`, January 1 of year
-262143, i.e. `(i32::MIN >> 13) + 1`). -/
def chronoMinTs : Int := -8334601228800

/-- Largest `i64` second count accepted by chrono's
`DateTime::from_timestamp` (last second of `NaiveDate::MAX`, December 31 of
year 262142, i.e. `(i32::MAX >> 13) - 1`). -/
def chronoMaxTs : Int := 8210266876799

/-- Model of chrono's `DateTime::from_timestamp(secs, 0)`: `none` exactly when
the second count falls outside the representable date range.  The resulting
`DateTime` is identified with its Unix timestamp (whole seconds). -/
def chronoFromTimestamp (t : Int) : Option Int :=
  if chronoMinTs ≤ t ∧ t ≤ chronoMaxTs then some t else none

/-- Model of Rust's `u64 as i64` cast (two's-complement wrap). -/
def u64_as_i64 (n : Nat) : Int :=
  if n % 18446744073709551616 < 9223372036854775808 then ((n % 18446744073709551616 : Nat) : Int)
  else ((n % 18446744073709551616 : Nat) : Int) - 18446744073709551616

/- ### ProcessLock / LockGuard (src/locking.rs)

The lock state is the content of the lock file: `none` when the file does not
exist, `some s` when it exists with content `s`.  Process liveness
(`is_process_running`, an OS probe) is an oracle `alive : Nat → Bool`; the
current wall clock (`Utc::now()`, whole seconds) is an `Int` parameter. -/

/-- Model of `ProcessLock::should_skip`.  `cooldown` is the lock's
`cooldown_seconds : u64`; `alive` the liveness probe; `now` the current Unix
time in seconds; `file` the lock-file state.  Reading an existing file is
assumed to succeed (read errors are orthogonal to every claim). -/
def should_skip (cooldown : Nat) (alive : Nat → Bool) (now : Int) (file : Option String) :
    Except String Bool :=
  match file with
  | none => .ok false
  | some lock_content =>
    let lines := rustLines lock_content
    let pidSkip :=
      match lines.head? with
      | some pid_line =>
        match parseU32 (rustTrim pid_line) with
        | some pid => alive pid
        | none => false
      | none => false
    if pidSkip then .ok true
    else
      match lines.get? 1 with
      | some timestamp_line =>
        match parseI64 (rustTrim timestamp_line) with
        | some timestamp =>
          match chronoFromTimestamp timestamp with
          | none => .error "Invalid timestamp in lock file"
          | some completion_time =>
            if now - completion_time < u64_as_i64 cooldown then .ok true else .ok false
        | none => .ok false
      | none => .ok false

/-- Model of `ProcessLock::acquire`: overwrite the lock file with the current
pid rendered in decimal (`fs::write(&self.lock_file, pid.to_string())`).
`writeOk` is the outcome of the underlying filesystem write. -/
def acquire (writeOk : Bool) (pid : Nat) : Except String String :=
  if writeOk then .ok (String.mk (natDigits pid)) else .error "Failed to write PID to lock file"

/-- Model of `ProcessLock::release`: overwrite the lock file with
`format!("\n{}", timestamp)` — an empty first line followed by the current
Unix timestamp. -/
def release (writeOk : Bool) (now : Int) : Except String String :=
  if writeOk then .ok (String.mk ('\n' :: intDigits now))
  else .error "Failed to write completion timestamp to lock file"

/-- Model of `impl Drop for LockGuard`: run `release`; on failure the error is
logged and swallowed (the function is total and returns the resulting
lock-file state, leaving it unchanged when the write failed). -/
def lockGuardDrop (writeOk : Bool) (now : Int) (file : Option String) : Option String :=
  match release writeOk now with
  | .ok content => some content
  | .error _ => file

/-- Model of `LockGuard::try_acquire` as a transition on the lock-file state:
returns the pair (guard acquired?, resulting lock-file state).  Path
construction by `ProcessLock::new` is modelled separately
(`processLock_new_lock_file`); this function models the content transition of
the already-named lock resource.  `writeOk` is the outcome of the `acquire`
write. -/
def try_acquire (cooldown : Nat) (alive : Nat → Bool) (now : Int) (writeOk : Bool) (pid : Nat)
    (file : Option String) : Except String (Bool × Option String) :=
  match should_skip cooldown alive now file with
  | .error e => .error e
  | .ok true => .ok (false, file)
  | .ok false =>
    match acquire writeOk pid with
    | .error e => .error e
    | .ok content => .ok (true, some content)

/- ### Spec-side definitions for claim C1 -/

/-- Claim C1 as literally stated (spec wording): the first line is acted on
only when it parses as a *positive* integer with a live process; the second
line, whenever it parses as an integer, yields a plain boolean cooldown
verdict (no error case) with the cooldown compared as an exact integer. -/
def spec_should_skip_claim (cooldown : Nat) (alive : Nat → Bool) (now : Int)
    (file : Option String) : Except String Bool :=
  match file with
  | none => .ok false
  | some content =>
    let lines := rustLines content
    let pidActive :=
      match lines.head? with
      | some pid_line =>
        match parseU32 (rustTrim pid_line) with
        | some pid => decide (0 < pid) && alive pid
        | none => false
      | none => false
    if pidActive then .ok true
    else
      match lines.get? 1 with
      | some timestamp_line =>
        match parseI64 (rustTrim timestamp_line) with
        | some timestamp => .ok (decide (now - timestamp < (cooldown : Int)))
        | none => .ok false
      | none => .ok false

/-- Spec wording of the first-line check, amended: any `u32` (including `0`
and values written with a leading `+`) whose process is alive marks the lock
as held; an empty or malformed first line yields `false` (ignored, not an
error). -/
def pid_line_active (alive : Nat → Bool) (lines : List String) : Bool :=
  match lines.head? with
  | some l =>
    match parseU32 (rustTrim l) with
    | some pid => alive pid
    | none => false
  | none => false

/-- Spec wording of the second-line check, amended: a second line parsing as
an `i64` inside chrono's representable range yields the cooldown comparison
(against the `u64 as i64` cast of `cooldown_seconds`); an `i64` outside that
range is an error; anything else yields `false`. -/
def cooldown_verdict (cooldown : Nat) (now : Int) (lines : List String) : Except String Bool :=
  match lines.get? 1 with
  | some l =>
    match parseI64 (rustTrim l) with
    | some ts =>
      match chronoFromTimestamp ts with
      | none => .error "Invalid timestamp in lock file"
      | some ct => .ok (decide (now - ct < u64_as_i64 cooldown))
    | none => .ok false
  | none => .ok false

/-- Claim C1 amended: lock-file absent means no skip; otherwise the two line
checks run in order, the first-line check never errs and falls through when it
does not fire. -/
def spec_should_skip_amended (cooldown : Nat) (alive : Nat → Bool) (now : Int)
    (file : Option String) : Except String Bool :=
  match file with
  | none => .ok false
  | some content =>
    if pid_line_active alive (rustLines content) then .ok true
    else cooldown_verdict cooldown now (rustLines content)

/- ### SHA-256 and lock-file naming (src/locking.rs: ProcessLock::new / hash_workspace) -/

/-- UTF-8 encoding of a single code point. -/
def utf8EncodeChar (c : Nat) : List Nat :=
  if c < 128 then [c]
  else if c < 2048 then [192 ||| (c >>> 6), 128 ||| (c &&& 63)]
  else if c < 65536 then
    [224 ||| (c >>> 12), 128 ||| ((c >>> 6) &&& 63), 128 ||| (c &&& 63)]
  else
    [240 ||| (c >>> 18), 128 ||| ((c >>> 12) &&& 63), 128 ||| ((c >>> 6) &&& 63),
     128 ||| (c &&& 63)]

/-- UTF-8 bytes of a string (Rust `str::as_bytes`). -/
def utf8Bytes (s : String) : List Nat := (s.data.map (fun c => utf8EncodeChar c.toNat)).flatten

/-- Modulus for 32-bit words. -/
def sha2M32 : Nat := 4294967296

/-- Right rotation of a 32-bit word. -/
def sha2Rotr (n x : Nat) : Nat := ((x >>> n) ||| (x <<< (32 - n))) % sha2M32

/-- SHA-256 big sigma 0. -/
def sha2BSig0 (x : Nat) : Nat := (sha2Rotr 2 x) ^^^ (sha2Rotr 13 x) ^^^ (sha2Rotr 22 x)

/-- SHA-256 big sigma 1. -/
def sha2BSig1 (x : Nat) : Nat := (sha2Rotr 6 x) ^^^ (sha2Rotr 11 x) ^^^ (sha2Rotr 25 x)

/-- SHA-256 small sigma 0. -/
def sha2SSig0 (x : Nat) : Nat := (sha2Rotr 7 x) ^^^ (sha2Rotr 18 x) ^^^ (x >>> 3)

/-- SHA-256 small sigma 1. -/
def sha2SSig1 (x : Nat) : Nat := (sha2Rotr 17 x) ^^^ (sha2Rotr 19 x) ^^^ (x >>> 10)

/-- SHA-256 choice function (bitwise not realised as xor with the all-ones
32-bit word). -/
def sha2Ch (x y z : Nat) : Nat := (x &&& y) ^^^ ((x ^^^ 4294967295) &&& z)

/-- SHA-256 majority function. -/
def sha2Maj (x y z : Nat) : Nat := (x &&& y) ^^^ (x &&& z) ^^^ (y &&& z)

/-- SHA-256 round constants (FIPS 180-4 section 4.2.2, written in decimal). -/
def sha2K : List Nat :=
  [1116352408, 1899447441, 3049323471, 3921009573,
   961987163, 1508970993, 2453635748, 2870763221,
   3624381080, 310598401, 607225278, 1426881987,
   1925078388, 2162078206, 2614888103, 3248222580,
   3835390401, 4022224774, 264347078, 604807628,
   770255983, 1249150122, 1555081692, 1996064986,
   2554220882, 2821834349, 2952996808, 3210313671,
   3336571891, 3584528711, 113926993, 338241895,
   666307205, 773529912, 1294757372, 1396182291,
   1695183700, 1986661051, 2177026350, 2456956037,
   2730485921, 2820302411, 3259730800, 3345764771,
   3516065817, 3600352804, 4094571909, 275423344,
   430227734, 506948616, 659060556, 883997877,
   958139571, 1322822218, 1537002063, 1747873779,
   1955562222, 2024104815, 2227730452, 2361852424,
   2428436474, 2756734187, 3204031479, 3329325298]

/-- Working state of the SHA-256 compression function. -/
structure Sha2State where
  a : Nat
  b : Nat
  c : Nat
  d : Nat
  e : Nat
  f : Nat
  g : Nat
  h : Nat

/-- Extend a 16-word message block to the 64-word schedule (`count` rounds of
extension; called with 48). -/
def sha2Extend : Nat → List Nat → List Nat
  | 0, w => w
  | k + 1, w =>
    let i := w.length
    let wi := (sha2SSig1 (w.getD (i - 2) 0) + w.getD (i - 7) 0 +
               sha2SSig0 (w.getD (i - 15) 0) + w.getD (i - 16) 0) % sha2M32
    sha2Extend k (w ++ [wi])

/-- One SHA-256 round. -/
def sha2Round (s : Sha2State) (kw : Nat × Nat) : Sha2State :=
  let t1 := (s.h + sha2BSig1 s.e + sha2Ch s.e s.f s.g + kw.1 + kw.2) % sha2M32
  let t2 := (sha2BSig0 s.a + sha2Maj s.a s.b s.c) % sha2M32
  { a := (t1 + t2) % sha2M32, b := s.a, c := s.b, d := s.c,
    e := (s.d + t1) % sha2M32, f := s.e, g := s.f, h := s.g }

/-- SHA-256 compression of one 16-word block into the chaining state. -/
def sha2Compress (hs : Sha2State) (block : List Nat) : Sha2State :=
  let w := sha2Extend 48 block
  let s := (sha2K.zip w).foldl sha2Round hs
  { a := (hs.a + s.a) % sha2M32, b := (hs.b + s.b) % sha2M32, c := (hs.c + s.c) % sha2M32,
    d := (hs.d + s.d) % sha2M32, e := (hs.e + s.e) % sha2M32, f := (hs.f + s.f) % sha2M32,
    g := (hs.g + s.g) % sha2M32, h := (hs.h + s.h) % sha2M32 }

/-- Group bytes into big-endian 32-bit words. -/
def sha2BytesToWords : List Nat → List Nat
  | b0 :: b1 :: b2 :: b3 :: rest =>
    (((b0 * 256 + b1) * 256 + b2) * 256 + b3) :: sha2BytesToWords rest
  | _ => []

/-- SHA-256 padding: `0x80`, zeros to 56 mod 64, then the bit length as a
64-bit big-endian integer. -/
def sha2Pad (msg : List Nat) : List Nat :=
  let L := msg.length
  let k := (64 + 56 - (L + 1) % 64) % 64
  let bitLen := (8 * L) % 18446744073709551616
  msg ++ [128] ++ List.replicate k 0 ++
    [bitLen >>> 56 &&& 255, bitLen >>> 48 &&& 255, bitLen >>> 40 &&& 255, bitLen >>> 32 &&& 255,
     bitLen >>> 24 &&& 255, bitLen >>> 16 &&& 255, bitLen >>> 8 &&& 255, bitLen &&& 255]

/-- Split padded bytes into 16-word blocks (fuel-based; fuel = byte count). -/
def sha2ToBlocks : Nat → List Nat → List (List Nat)
  | 0, _ => []
  | _, [] => []
  | fuel + 1, bs => sha2BytesToWords (bs.take 64) :: sha2ToBlocks fuel (bs.drop 64)

/-- The eight 32-bit words of the SHA-256 digest of a byte sequence. -/
def sha256Words (msg : List Nat) : List Nat :=
  let padded := sha2Pad msg
  let blocks := sha2ToBlocks padded.length padded
  let init : Sha2State :=
    ⟨1779033703, 3144134277, 1013904242, 2773480762,
     1359893119, 2600822924, 528734635, 1541459225⟩
  let fin := blocks.foldl sha2Compress init
  [fin.a, fin.b, fin.c, fin.d, fin.e, fin.f, fin.g, fin.h]

/-- Lowercase hexadecimal digit. -/
def hexDigit (n : Nat) : Char := Char.ofNat (if n < 10 then 48 + n else 87 + n)

/-- Eight lowercase hex digits of a 32-bit word (most significant first). -/
def wordHex (w : Nat) : List Char :=
  [hexDigit (w / 268435456 % 16), hexDigit (w / 16777216 % 16), hexDigit (w / 1048576 % 16),
   hexDigit (w / 65536 % 16), hexDigit (w / 4096 % 16), hexDigit (w / 256 % 16),
   hexDigit (w / 16 % 16), hexDigit (w % 16)]

/-- Lowercase hexadecimal SHA-256 digest of a byte sequence, as produced by
Rust's `format!("{:x}", hasher.finalize())`. -/
def sha256hex (msg : List Nat) : String :=
  String.mk ((sha256Words msg).map wordHex).flatten

/-- Model of `ProcessLock::hash_workspace`: canonicalization is an oracle
(`none` when the workspace path cannot be resolved); on success the hash is
the first 16 hex characters of the SHA-256 of the canonical path's bytes. -/
def hash_workspace (canonical : Option String) : Except String String :=
  match canonical with
  | none => .error "Failed to canonicalize workspace path"
  | some p => .ok (String.mk ((sha256hex (utf8Bytes p)).data.take 16))

/-- Model of the lock-file path built by `ProcessLock::new`:
`/tmp/claude-python-guardrails-{operation}-{workspace_hash}.lock`. -/
def processLock_new_lock_file (canonical : Option String) (operation : String) :
    Except String String :=
  match hash_workspace canonical with
  | .error e => .error e
  | .ok workspace_hash =>
    .ok ("/tmp/" ++ ("claude-python-guardrails-" ++ operation ++ "-" ++ workspace_hash ++ ".lock"))

/- ### Exclusion engine (src/lib.rs) -/

/-- Naive prefix test on character lists. -/
def listPrefixOf : List Char → List Char → Bool
  | [], _ => true
  | _ :: _, [] => false
  | a :: as, b :: bs => a == b && listPrefixOf as bs

/-- Substring occurrence test on character lists (`pat` occurs somewhere in
the second argument). -/
def listContainsSub (pat : List Char) : List Char → Bool
  | [] => listPrefixOf pat []
  | c :: rest => listPrefixOf pat (c :: rest) || listContainsSub pat rest

/-- Model of Rust `str::contains` with a string pattern. -/
def strContains (hay pat : String) : Bool := listContainsSub pat.data hay.data

/-- ASCII lowercasing of a character (Rust `str::to_lowercase` restricted to
ASCII; the strings compared here are ASCII path fragments). -/
def asciiLowerChar (c : Char) : Char :=
  if 65 ≤ c.toNat && c.toNat ≤ 90 then Char.ofNat (c.toNat + 32) else c

/-- ASCII lowercasing of a string. -/
def asciiLower (s : String) : String := String.mk (s.data.map asciiLowerChar)

/-- Model of Rust `Path::file_name().and_then(|n| n.to_str()).unwrap_or("")`:
the last path component after dropping empty and `.` components, or `""` when
the path has no components or ends in `..`. -/
def rustFileName (path : String) : String :=
  let comps := (splitOnChar '/' path.data).filter (fun cs => cs ≠ [] && cs ≠ ['.'])
  match comps.getLast? with
  | none => ""
  | some cs => if cs = ['.', '.'] then "" else String.mk cs

/-- The fixed generated-file marker list of `is_generated_file`. -/
def generated_patterns : List String :=
  ["_pb2.py", "_pb2_grpc.py", ".generated.", "_generated.", ".pb.go", ".g.dart",
   "generated", ".gen."]

/-- Model of `is_generated_file` (src/lib.rs): lowercase the path string and
the file name and test each marker for substring occurrence in either. -/
def is_generated_file (file_path : String) : Bool :=
  let path_str := asciiLower file_path
  let filename := asciiLower (rustFileName file_path)
  generated_patterns.any (fun pattern => strContains path_str pattern || strContains filename pattern)

/-- Claim C7 as literally stated: the seven explicit markers are substring
matches, but `generated` counts only as a literal path segment. -/
def spec_is_generated_claim (file_path : String) : Bool :=
  let path_str := asciiLower file_path
  let filename := asciiLower (rustFileName file_path)
  (["_pb2.py", "_pb2_grpc.py", ".generated.", "_generated.", ".pb.go", ".g.dart",
    ".gen."].any (fun pattern => strContains path_str pattern || strContains filename pattern)) ||
  (splitOnChar '/' path_str.data).contains ['g', 'e', 'n', 'e', 'r', 'a', 't', 'e', 'd']

/-- Filesystem oracle for the exclusion engine: existence, `fs::metadata`
(`some len` on success), and the readable file bytes for the binary sniff
(`none` when opening/reading fails). -/
structure FileSystem where
  pathExists : String → Bool
  metadata : String → Option Nat
  content : String → Option (List Nat)

/-- Model of `is_binary_file`: read up to the first 1024 bytes and look for a
null byte; opening/reading a file that cannot be read is an error. -/
def is_binary_file (fs : FileSystem) (file_path : String) : Except String Bool :=
  match fs.content file_path with
  | none => .error "Failed to open file for binary check"
  | some bytes => .ok ((bytes.take 1024).contains 0)

/-- Model of `GuardrailsChecker` after construction: the three compiled glob
sets become abstract path predicates, plus the scalar rules. -/
structure GuardrailsChecker where
  global_globset : String → Bool
  lint_globset : String → Bool
  test_globset : String → Bool
  max_file_size_bytes : Nat
  skip_binary_files : Bool
  skip_generated_files : Bool

/-- Exclusion context (src/lib.rs `ExclusionContext`). -/
inductive ExclusionContext where
  | Any : ExclusionContext
  | Lint : ExclusionContext
  | Test : ExclusionContext

/-- The context-specific pattern check of `should_exclude_context` (the
`match context` block; `Any` checks lint or test patterns). -/
def contextPatternMatch (c : GuardrailsChecker) (context : ExclusionContext)
    (file_path : String) : Bool :=
  match context with
  | ExclusionContext.Any => c.lint_globset file_path || c.test_globset file_path
  | ExclusionContext.Lint => c.lint_globset file_path
  | ExclusionContext.Test => c.test_globset file_path

/-- The file-based rules of `should_exclude_context` (the `if
file_path.exists()` block): size, then binary sniff, then generated-file
heuristic; a non-existent path is never excluded by these rules. -/
def fs_verdict (c : GuardrailsChecker) (fs : FileSystem) (file_path : String) :
    Except String Bool :=
  if fs.pathExists file_path then
    if (match fs.metadata file_path with
        | some len => decide (len > c.max_file_size_bytes)
        | none => false) then .ok true
    else
      match (if c.skip_binary_files then is_binary_file fs file_path else .ok false) with
      | .error e => .error e
      | .ok true => .ok true
      | .ok false =>
        if c.skip_generated_files && is_generated_file file_path then .ok true else .ok false
  else .ok false

/-- Model of `GuardrailsChecker::should_exclude_context`: global patterns
first, then context patterns, then file-based rules (the source inlines the
two helper checks with early returns). -/
def should_exclude_context (c : GuardrailsChecker) (fs : FileSystem) (file_path : String)
    (context : ExclusionContext) : Except String Bool :=
  if c.global_globset file_path then .ok true
  else if contextPatternMatch c context file_path then .ok true
  else fs_verdict c fs file_path

/-- Model of `GuardrailsChecker::should_exclude`. -/
def should_exclude (c : GuardrailsChecker) (fs : FileSystem) (file_path : String) :
    Except String Bool :=
  should_exclude_context c fs file_path ExclusionContext.Any

/-- Model of `GuardrailsChecker::should_exclude_lint`. -/
def should_exclude_lint (c : GuardrailsChecker) (fs : FileSystem) (file_path : String) :
    Except String Bool :=
  should_exclude_context c fs file_path ExclusionContext.Lint

/-- Model of `GuardrailsChecker::should_exclude_test`. -/
def should_exclude_test (c : GuardrailsChecker) (fs : FileSystem) (file_path : String) :
    Except String Bool :=
  should_exclude_context c fs file_path ExclusionContext.Test

/-- True exactly on a successful `true` verdict. -/
def okTrue : Except String Bool → Bool
  | .ok true => true
  | _ => false

/-- Concrete checker used by witnesses: one global, one lint and one test
pattern, a 10-byte size limit, both heuristics on. -/
def demoChecker : GuardrailsChecker :=
  { global_globset := fun p => p == "a.pyc"
    lint_globset := fun p => p == "b.py"
    test_globset := fun p => p == "t.py"
    max_file_size_bytes := 10
    skip_binary_files := true
    skip_generated_files := true }

/-- Concrete filesystem used by witnesses: nothing exists. -/
def demoFS : FileSystem :=
  { pathExists := fun _ => false
    metadata := fun _ => none
    content := fun _ => none }

/- ### AutomationResult (src/automation.rs) -/

/-- Terminal outcome of one orchestration run. -/
inductive AutomationResult where
  | NoAction : AutomationResult
  | Skipped : AutomationResult
  | Success : String → AutomationResult
  | Failure : String → AutomationResult

/-- Model of `AutomationResult::exit_code`. -/
def AutomationResult.exit_code : AutomationResult → Int
  | AutomationResult.NoAction | AutomationResult.Skipped => 0
  | AutomationResult.Success _ | AutomationResult.Failure _ => 2

/-- Model of `AutomationResult::message`. -/
def AutomationResult.message : AutomationResult → Option String
  | AutomationResult.Success msg | AutomationResult.Failure msg => some msg
  | AutomationResult.NoAction | AutomationResult.Skipped => none

/- ### Theorems -/

/-- Helper: a conditional boolean success collapses to `decide`. -/
theorem ite_ok_decide (P : Prop) [Decidable P] :
    (if P then (Except.ok true : Except String Bool) else Except.ok false) =
      Except.ok (decide P) := by
  by_cases h : P <;> simp [h]

/-- C1 (amended): `should_skip` returns false for a missing lock file, and
otherwise first applies the pid-line check (any parsed `u32` with a live
process skips; an empty or malformed first line is ignored, not an error) and
then the cooldown check (an `i64` second line in chrono's representable range
compares `now - timestamp` against the `u64 as i64` cast of the cooldown; an
out-of-range `i64` is an error; anything else yields false). -/
theorem should_skip_eq_amended (cooldown : Nat) (alive : Nat → Bool) (now : Int)
    (file : Option String) :
    should_skip cooldown alive now file = spec_should_skip_amended cooldown alive now file := by
  cases file with
  | none => rfl
  | some content =>
    simp only [should_skip, spec_should_skip_amended, pid_line_active, cooldown_verdict]
    rcases rustLines content with _ | ⟨l0, rest⟩
    · rfl
    · simp only [List.head?]
      rcases Bool.eq_false_or_eq_true
          (match parseU32 (rustTrim l0) with
            | some pid => alive pid
            | none => false) with hb | hb
      · simp [hb]
      · simp only [hb, Bool.false_eq_true, if_false]
        rcases rest with _ | ⟨l1, rest2⟩
        · rfl
        · simp only [List.get?_cons_succ, List.get?_cons_zero]
          rcases ht : parseI64 (rustTrim l1) with _ | ts
          · rfl
          · show (match chronoFromTimestamp ts with
                  | none => (Except.error "Invalid timestamp in lock file" : Except String Bool)
                  | some completion_time =>
                    if now - completion_time < u64_as_i64 cooldown then Except.ok true
                    else Except.ok false) =
                (match chronoFromTimestamp ts with
                  | none => (Except.error "Invalid timestamp in lock file" : Except String Bool)
                  | some ct => Except.ok (decide (now - ct < u64_as_i64 cooldown)))
            rcases hc : chronoFromTimestamp ts with _ | ct
            · rfl
            · exact ite_ok_decide _

/-- C1 counterexample: the claim's "positive integer" first-line reading and
its error-free second-line reading both disagree with the code.  A first line
`0` (which is not positive) with a live pid-0 probe makes the code skip, and
an in-`i64`-range but chrono-unrepresentable second line makes the code error
where the claim requires a boolean verdict. -/
theorem should_skip_claim_counterexample :
    should_skip 0 (fun _ => true) 0 (some "0") = .ok true ∧
    spec_should_skip_claim 0 (fun _ => true) 0 (some "0") = .ok false ∧
    should_skip 7 (fun _ => false) 0 (some "\n9223372036854775807") =
      .error "Invalid timestamp in lock file" ∧
    spec_should_skip_claim 7 (fun _ => false) 0 (some "\n9223372036854775807") = .ok true :=
  ⟨rfl, rfl, rfl, rfl⟩

/-- C10: a lock file whose second line parses as an `i64` outside the
representable chrono timestamp range (here `i64::MAX`) makes `should_skip`
return the error "Invalid timestamp in lock file", while a corrupt first
(pid) line alone is ignored and yields `ok false`. -/
theorem invalid_timestamp_aborts :
    parseI64 (rustTrim "9223372036854775807") = some 9223372036854775807 ∧
    should_skip 5 (fun _ => false) 100 (some "\n9223372036854775807") =
      .error "Invalid timestamp in lock file" ∧
    should_skip 5 (fun _ => false) 100 (some "corrupted-pid-line") = .ok false :=
  ⟨rfl, rfl, rfl⟩

/-- C2: `try_acquire` returns no guard and leaves the lock file untouched
exactly when `should_skip` holds; otherwise it writes the current pid as the
sole lock-file content and returns a guard; `should_skip` errors propagate;
and the guard's drop handler is total — a failing `release` write leaves the
state unchanged and never surfaces an error. -/
theorem try_acquire_semantics (cooldown : Nat) (alive : Nat → Bool) (now : Int) (writeOk : Bool)
    (pid : Nat) (file : Option String) :
    (should_skip cooldown alive now file = .ok true →
      try_acquire cooldown alive now writeOk pid file = .ok (false, file)) ∧
    (should_skip cooldown alive now file = .ok false → writeOk = true →
      try_acquire cooldown alive now writeOk pid file =
        .ok (true, some (String.mk (natDigits pid)))) ∧
    (∀ f2, try_acquire cooldown alive now writeOk pid file = .ok (false, f2) →
      should_skip cooldown alive now file = .ok true ∧ f2 = file) ∧
    (∀ e, should_skip cooldown alive now file = .error e →
      try_acquire cooldown alive now writeOk pid file = .error e) ∧
    (∀ (wOk : Bool) (t : Int) (f : Option String),
      lockGuardDrop wOk t f = if wOk then some (String.mk ('\n' :: intDigits t)) else f) := by
  refine ⟨?_, ?_, ?_, ?_, ?_⟩
  · intro h; simp [try_acquire, h]
  · intro h hw; simp [try_acquire, h, acquire, hw]
  · intro f2 h
    cases hs : should_skip cooldown alive now file with
    | error e => simp [try_acquire, hs] at h
    | ok b =>
      cases b with
      | true =>
        simp only [try_acquire, hs] at h
        exact ⟨rfl, by injection h with h1; injection h1 with h2 h3; exact h3.symm⟩
      | false =>
        cases writeOk <;> simp [try_acquire, hs, acquire] at h
  · intro e h; simp [try_acquire, h]
  · intro wOk t f; cases wOk <;> simp [lockGuardDrop, release]

/-- Witness for C2 at concrete inputs: a live pid `1` in the lock file makes
`try_acquire` decline and keep the file, and an absent lock file makes it
acquire and write pid `42`. -/
theorem try_acquire_semantics_witness :
    try_acquire 0 (fun _ => true) 0 true 42 (some "1") = .ok (false, some "1") ∧
    try_acquire 0 (fun _ => true) 0 true 42 none = .ok (true, some (String.mk (natDigits 42))) :=
  ⟨(try_acquire_semantics 0 (fun _ => true) 0 true 42 (some "1")).1 rfl,
   (try_acquire_semantics 0 (fun _ => true) 0 true 42 none).2.1 rfl rfl⟩

/-- C4: the Any-context verdict is successfully-true exactly when the Lint or
the Test verdict is, and the Test verdict is invariant under replacing the
lint glob set (and symmetrically for Lint under the test glob set). -/
theorem any_context_union (c : GuardrailsChecker) (fs : FileSystem) (p : String) :
    okTrue (should_exclude c fs p) =
      (okTrue (should_exclude_lint c fs p) || okTrue (should_exclude_test c fs p)) ∧
    (∀ g : String → Bool,
      should_exclude_test { c with lint_globset := g } fs p = should_exclude_test c fs p) ∧
    (∀ g : String → Bool,
      should_exclude_lint { c with test_globset := g } fs p = should_exclude_lint c fs p) := by
  refine ⟨?_, fun g => rfl, fun g => rfl⟩
  simp only [should_exclude, should_exclude_lint, should_exclude_test, should_exclude_context,
    contextPatternMatch]
  rcases Bool.eq_false_or_eq_true (c.global_globset p) with hg | hg <;>
    rcases Bool.eq_false_or_eq_true (c.lint_globset p) with hl | hl <;>
      rcases Bool.eq_false_or_eq_true (c.test_globset p) with ht | ht <;>
        simp [hg, hl, ht, okTrue, Bool.or_self]

/-- C5: a global glob match forces a successful `true` verdict in every
context and for every filesystem state, and likewise any context-specific
pattern match short-circuits before any filesystem inspection. -/
theorem pattern_short_circuit (c : GuardrailsChecker) (p : String) :
    (c.global_globset p = true →
      ∀ (context : ExclusionContext) (fs : FileSystem),
        should_exclude_context c fs p context = .ok true) ∧
    (∀ (context : ExclusionContext) (fs : FileSystem),
      contextPatternMatch c context p = true →
        should_exclude_context c fs p context = .ok true) := by
  constructor
  · intro hg context fs; simp [should_exclude_context, hg]
  · intro context fs hm; simp [should_exclude_context, hm]

/-- Witness for C5: the demo checker's global pattern and test pattern each
force exclusion on the demo filesystem. -/
theorem pattern_short_circuit_witness :
    should_exclude_context demoChecker demoFS "a.pyc" ExclusionContext.Test = .ok true ∧
    should_exclude_context demoChecker demoFS "t.py" ExclusionContext.Test = .ok true :=
  ⟨(pattern_short_circuit demoChecker "a.pyc").1 rfl ExclusionContext.Test demoFS,
   (pattern_short_circuit demoChecker "t.py").2 ExclusionContext.Test demoFS rfl⟩

/-- C6: for a path that does not exist on disk, every context's verdict is a
successful boolean determined purely by the glob patterns (global or
context-specific), with no filesystem heuristics and no error. -/
theorem nonexistent_pattern_only (c : GuardrailsChecker) (fs : FileSystem) (p : String)
    (context : ExclusionContext) (h : fs.pathExists p = false) :
    should_exclude_context c fs p context =
      .ok (c.global_globset p || contextPatternMatch c context p) := by
  cases hg : c.global_globset p <;> cases hm : contextPatternMatch c context p <;>
    simp [should_exclude_context, fs_verdict, h, hg, hm]

/-- Witness for C6: a lint-pattern path that does not exist is excluded for
Lint with a successful verdict. -/
theorem nonexistent_pattern_only_witness :
    should_exclude_context demoChecker demoFS "b.py" ExclusionContext.Lint = .ok true := by
  rw [nonexistent_pattern_only demoChecker demoFS "b.py" ExclusionContext.Lint rfl]
  rfl

/-- C9: `exit_code` maps NoAction and Skipped to 0 and Success and Failure to
2, and `message` is `some` exactly on the exit-code-2 variants. -/
theorem automation_exit_code_message :
    AutomationResult.exit_code AutomationResult.NoAction = 0 ∧
    AutomationResult.exit_code AutomationResult.Skipped = 0 ∧
    (∀ m : String, AutomationResult.exit_code (AutomationResult.Success m) = 2 ∧
      AutomationResult.exit_code (AutomationResult.Failure m) = 2 ∧
      AutomationResult.message (AutomationResult.Success m) = some m ∧
      AutomationResult.message (AutomationResult.Failure m) = some m) ∧
    AutomationResult.message AutomationResult.NoAction = none ∧
    AutomationResult.message AutomationResult.Skipped = none ∧
    (∀ r : AutomationResult,
      (AutomationResult.message r).isSome = decide (AutomationResult.exit_code r = 2)) := by
  refine ⟨rfl, rfl, fun m => ⟨rfl, rfl, rfl, rfl⟩, rfl, rfl, fun r => ?_⟩
  cases r <;> rfl

/-- FIPS 180-4 test vector: SHA-256 of the empty message. -/
theorem sha256hex_empty :
    sha256hex [] = "e3b0c44298fc1c149afbf4c8996fb92427ae41e4649b934ca495991b7852b855" := by
  rfl

/-- FIPS 180-4 test vector: SHA-256 of the bytes of "abc". -/
theorem sha256hex_abc :
    sha256hex (utf8Bytes "abc") =
      "ba7816bf8f01cfea414140de5dae2223b00361a396177a9cb410ff61f20015ad" := by
  rfl

/-- The hexadecimal SHA-256 digest always has 64 characters. -/
theorem sha256hex_length (msg : List Nat) : (sha256hex msg).data.length = 64 := by
  simp [sha256hex, sha256Words, wordHex]

/-- C8: for every successfully canonicalized workspace path and operation,
the lock-file path is `/tmp/claude-python-guardrails-{operation}-{hash}.lock`
where `hash` is the first 16 hex characters of the SHA-256 of the canonical
path, and that hash prefix has exactly 16 characters.  The construction is a
pure function of the canonical path and the operation, so equal inputs give
the equal lock file. -/
theorem lock_file_naming (p operation : String) :
    processLock_new_lock_file (some p) operation =
      .ok ("/tmp/" ++ ("claude-python-guardrails-" ++ operation ++ "-" ++
        String.mk ((sha256hex (utf8Bytes p)).data.take 16) ++ ".lock")) ∧
    (String.mk ((sha256hex (utf8Bytes p)).data.take 16)).length = 16 := by
  constructor
  · rfl
  · show ((sha256hex (utf8Bytes p)).data.take 16).length = 16
    simp [List.length_take, sha256hex_length (utf8Bytes p)]

/-- Extending the scanned list to the right preserves a prefix match. -/
theorem listPrefixOf_append (pat as bs : List Char) (h : listPrefixOf pat as = true) :
    listPrefixOf pat (as ++ bs) = true := by
  induction pat generalizing as with
  | nil => rfl
  | cons p ps ih =>
    cases as with
    | nil => simp [listPrefixOf] at h
    | cons a as2 =>
      simp only [listPrefixOf, Bool.and_eq_true] at h
      simp only [List.cons_append, listPrefixOf, Bool.and_eq_true]
      exact ⟨h.1, ih as2 h.2⟩

/-- A substring occurrence in the tail is an occurrence in the whole list. -/
theorem listContainsSub_append_right (pat xs ys : List Char)
    (h : listContainsSub pat ys = true) : listContainsSub pat (xs ++ ys) = true := by
  induction xs with
  | nil => simpa using h
  | cons x xs2 ih => simp [listContainsSub, ih]

/-- A substring occurrence on the left survives appending on the right. -/
theorem listContainsSub_append_left (pat xs ys : List Char)
    (h : listContainsSub pat xs = true) : listContainsSub pat (xs ++ ys) = true := by
  induction xs with
  | nil =>
    cases pat with
    | nil =>
      cases ys with
      | nil => rfl
      | cons y t => simp [listContainsSub, listPrefixOf]
    | cons p ps => simp [listContainsSub, listPrefixOf] at h
  | cons x xs2 ih =>
    simp only [listContainsSub, Bool.or_eq_true] at h
    rcases h with hpre | hsub
    · simp only [List.cons_append, listContainsSub, Bool.or_eq_true]
      exact Or.inl (listPrefixOf_append pat (x :: xs2) ys hpre)
    · simp only [List.cons_append, listContainsSub, Bool.or_eq_true]
      exact Or.inr (ih hsub)

/-- A substring occurrence in a middle section occurs in the surrounding
list. -/
theorem listContainsSub_inner (pat mid pre post : List Char)
    (h : listContainsSub pat mid = true) :
    listContainsSub pat (pre ++ mid ++ post) = true := by
  rw [List.append_assoc]
  exact listContainsSub_append_right pat pre (mid ++ post)
    (listContainsSub_append_left pat mid post h)

/-- `splitOnChar` never returns the empty list of fragments. -/
theorem splitOnChar_ne_nil (sep : Char) (cs : List Char) :
    ∃ q qs, splitOnChar sep cs = q :: qs := by
  induction cs with
  | nil => exact ⟨[], [], rfl⟩
  | cons c rest ih =>
    obtain ⟨q, qs, h⟩ := ih
    by_cases hc : c = sep
    · exact ⟨[], q :: qs, by simp [splitOnChar, h, hc]⟩
    · exact ⟨c :: q, qs, by simp [splitOnChar, h, hc]⟩

/-- The first fragment of `splitOnChar` is a prefix of the input. -/
theorem splitOnChar_first (sep : Char) (cs : List Char) :
    ∀ q qs, splitOnChar sep cs = q :: qs → ∃ post, cs = q ++ post := by
  induction cs with
  | nil =>
    intro q qs h
    simp only [splitOnChar, List.cons.injEq] at h
    exact ⟨[], by simp [← h.1]⟩
  | cons c rest ih =>
    intro q qs h
    obtain ⟨q2, qs2, h2⟩ := splitOnChar_ne_nil sep rest
    by_cases hc : c = sep
    · simp only [splitOnChar, h2, hc, if_pos, List.cons.injEq] at h
      exact ⟨c :: rest, by simp [← h.1]⟩
    · simp only [splitOnChar, h2, hc, if_neg, ite_false, List.cons.injEq] at h
      obtain ⟨post, hp⟩ := ih q2 qs2 h2
      exact ⟨post, by rw [← h.1, List.cons_append, ← hp]⟩

/-- Every fragment of `splitOnChar` occurs contiguously in the input. -/
theorem splitOnChar_mem (sep : Char) (cs : List Char) :
    ∀ piece, piece ∈ splitOnChar sep cs → ∃ pre post, cs = pre ++ piece ++ post := by
  induction cs with
  | nil =>
    intro piece h
    simp only [splitOnChar, List.mem_singleton] at h
    exact ⟨[], [], by simp [h]⟩
  | cons c rest ih =>
    intro piece h
    obtain ⟨q, qs, hs⟩ := splitOnChar_ne_nil sep rest
    by_cases hc : c = sep
    · rw [show splitOnChar sep (c :: rest) = [] :: q :: qs by simp [splitOnChar, hs, hc]] at h
      rcases List.mem_cons.mp h with hpiece | hpiece
      · exact ⟨[], c :: rest, by simp [hpiece]⟩
      · obtain ⟨pre, post, hsplit⟩ := ih piece (hs ▸ hpiece)
        exact ⟨c :: pre, post, by simp [hsplit]⟩
    · rw [show splitOnChar sep (c :: rest) = (c :: q) :: qs by simp [splitOnChar, hs, hc]] at h
      rcases List.mem_cons.mp h with hpiece | hpiece
      · obtain ⟨post, hp⟩ := splitOnChar_first sep rest q qs hs
        exact ⟨[], post, by simp [hpiece, hp]⟩
      · obtain ⟨pre, post, hsplit⟩ := ih piece (by rw [hs]; exact List.mem_cons_of_mem q hpiece)
        exact ⟨c :: pre, post, by simp [hsplit]⟩

/-- A `getLast?` result is a member of the list. -/
theorem mem_of_getLast?_eq (l : List (List Char)) (x : List Char) (h : l.getLast? = some x) :
    x ∈ l := by
  induction l with
  | nil => simp [List.getLast?] at h
  | cons a t ih =>
    cases t with
    | nil => simp [List.getLast?] at h; simp [h]
    | cons b t2 =>
      rw [List.getLast?_cons_cons] at h
      exact List.mem_cons_of_mem a (ih h)

/-- The extracted file name occurs contiguously in the path string. -/
theorem rustFileName_infix (p : String) :
    ∃ pre post, p.data = pre ++ (rustFileName p).data ++ post := by
  simp only [rustFileName]
  cases hl : ((splitOnChar '/' p.data).filter (fun cs => cs ≠ [] && cs ≠ ['.'])).getLast? with
  | none => exact ⟨p.data, [], by simp⟩
  | some cs =>
    by_cases hdd : cs = ['.', '.']
    · simp only [hdd, if_pos]
      exact ⟨p.data, [], by simp⟩
    · simp only [hdd, ite_false]
      have hmem : cs ∈ splitOnChar '/' p.data :=
        List.mem_of_mem_filter (mem_of_getLast?_eq _ cs hl)
      obtain ⟨pre, post, h⟩ := splitOnChar_mem '/' p.data cs hmem
      exact ⟨pre, post, by simpa using h⟩

/-- A marker found in the lowercased file name is found in the lowercased
path. -/
theorem strContains_fileName_le (p pat : String)
    (h : strContains (asciiLower (rustFileName p)) pat = true) :
    strContains (asciiLower p) pat = true := by
  obtain ⟨pre, post, hsplit⟩ := rustFileName_infix p
  unfold strContains at h ⊢
  have hdata : (asciiLower p).data =
      pre.map asciiLowerChar ++ (asciiLower (rustFileName p)).data ++ post.map asciiLowerChar := by
    show p.data.map asciiLowerChar = _
    rw [hsplit]
    simp [asciiLower]
  rw [hdata]
  exact listContainsSub_inner pat.data _ _ _ h

/-- Fold a redundant disjunct out of a `List.any`. -/
theorem any_or_collapse (l : List String) (f g : String → Bool)
    (h : ∀ x, g x = true → f x = true) :
    (l.any fun x => f x || g x) = l.any f := by
  induction l with
  | nil => rfl
  | cons a t ih =>
    simp only [List.any_cons, ih]
    rcases Bool.eq_false_or_eq_true (g a) with hg | hg
    · simp [hg, h a hg]
    · simp [hg]

/-- C7 (amended): `is_generated_file` holds exactly when one of the eight
markers occurs as a substring of the lowercased path string — `generated`
included as a plain substring, not only as a literal path segment, and the
separate file-name check is redundant because the file name occurs in the
path. -/
theorem is_generated_iff_marker (p : String) :
    is_generated_file p =
      generated_patterns.any (fun pattern => strContains (asciiLower p) pattern) := by
  unfold is_generated_file
  exact any_or_collapse generated_patterns _ _ (fun pat => strContains_fileName_le p pat)

/-- C7 counterexample: `regenerated.py` contains `generated` only as a bare
substring (not as a path segment and not via any other marker), yet the code
classifies it as generated, contradicting the claim's segment-only reading. -/
theorem is_generated_claim_counterexample :
    is_generated_file "regenerated.py" = true ∧
    spec_is_generated_claim "regenerated.py" = false :=
  ⟨rfl, rfl⟩

/-- `natDigitsAux` of zero is empty for any fuel. -/
theorem natDigitsAux_zero (fuel : Nat) : natDigitsAux fuel 0 = [] := by
  cases fuel <;> simp [natDigitsAux]

/-- Appending a digit multiplies the accumulated value by ten. -/
theorem digitsToNat_append_digit (xs : List Char) (c : Char) :
    digitsToNat (xs ++ [c]) = digitsToNat xs * 10 + (c.toNat - 48) := by
  simp [digitsToNat, List.foldl_append]

/-- The code point of a digit character built from a digit value. -/
theorem charOfDigit_toNat (d : Nat) (hd : d < 10) : (Char.ofNat (48 + d)).toNat = 48 + d := by
  interval_cases d <;> decide

/-- A digit character built from a digit value passes the digit test. -/
theorem charOfDigit_isDigit (d : Nat) (hd : d < 10) :
    isDigitChar (Char.ofNat (48 + d)) = true := by
  interval_cases d <;> decide

/-- `natDigitsAux` produces a non-empty all-digit list whose value is the
input, whenever the fuel suffices. -/
theorem natDigitsAux_spec (fuel : Nat) :
    ∀ n, 0 < n → n ≤ fuel →
      natDigitsAux fuel n ≠ [] ∧ (natDigitsAux fuel n).all isDigitChar = true ∧
        digitsToNat (natDigitsAux fuel n) = n := by
  induction fuel with
  | zero => intro n h1 h2; omega
  | succ fuel ih =>
    intro n h1 h2
    simp only [natDigitsAux]
    rw [if_neg (by omega)]
    by_cases h10 : n / 10 = 0
    · rw [h10, natDigitsAux_zero, List.nil_append]
      refine ⟨by simp, ?_, ?_⟩
      · simp [charOfDigit_isDigit (n % 10) (by omega)]
      · simp [digitsToNat, charOfDigit_toNat (n % 10) (by omega)]
        omega
    · have hlt : n / 10 ≤ fuel := by omega
      have hpos : 0 < n / 10 := Nat.pos_of_ne_zero h10
      obtain ⟨hne, hall, hval⟩ := ih (n / 10) hpos hlt
      refine ⟨by simp, ?_, ?_⟩
      · simp [List.all_append, hall, charOfDigit_isDigit (n % 10) (by omega)]
      · rw [digitsToNat_append_digit, hval, charOfDigit_toNat (n % 10) (by omega)]
        omega

/-- `natDigits` produces a non-empty all-digit list whose value is the
input. -/
theorem natDigits_spec (n : Nat) :
    natDigits n ≠ [] ∧ (natDigits n).all isDigitChar = true ∧ digitsToNat (natDigits n) = n := by
  by_cases h : n = 0
  · subst h
    exact ⟨by decide, by decide, by decide⟩
  · simp only [natDigits, if_neg h]
    exact natDigitsAux_spec n n (Nat.pos_of_ne_zero h) le_rfl

/-- Parsing the printed digits of a natural number recovers it. -/
theorem parseDigits_natDigits (n : Nat) : parseDigits (natDigits n) = some n := by
  obtain ⟨hne, hall, hval⟩ := natDigits_spec n
  obtain ⟨c, cs, hcons⟩ := List.exists_cons_of_ne_nil hne
  rw [hcons] at hall hval
  rw [hcons]
  simp [parseDigits, hall, hval]

/-- The leading character of `natDigits` is an ASCII digit. -/
theorem natDigits_head_digit (n : Nat) (c : Char) (cs : List Char) (h : natDigits n = c :: cs) :
    48 ≤ c.toNat ∧ c.toNat ≤ 57 := by
  obtain ⟨-, hall, -⟩ := natDigits_spec n
  rw [h] at hall
  have := (List.all_eq_true.mp hall) c (List.mem_cons_self c cs)
  simpa [isDigitChar] using this

/-- Every character of `intDigits` is a minus sign or an ASCII digit. -/
theorem intDigits_chars (t : Int) (c : Char) (h : c ∈ intDigits t) :
    c.toNat = 45 ∨ (48 ≤ c.toNat ∧ c.toNat ≤ 57) := by
  unfold intDigits at h
  by_cases ht : t < 0
  · rw [if_pos ht] at h
    rcases List.mem_cons.mp h with hc | hc
    · left; rw [hc]; rfl
    · right
      obtain ⟨-, hall, -⟩ := natDigits_spec t.natAbs
      have := (List.all_eq_true.mp hall) c hc
      simpa [isDigitChar] using this
  · rw [if_neg ht] at h
    right
    obtain ⟨-, hall, -⟩ := natDigits_spec t.toNat
    have := (List.all_eq_true.mp hall) c h
    simpa [isDigitChar] using this

/-- No character of `intDigits` is whitespace. -/
theorem intDigits_not_ws (t : Int) (c : Char) (h : c ∈ intDigits t) :
    isRustWhitespace c = false := by
  rcases intDigits_chars t c h with h1 | h1 <;>
    · simp only [isRustWhitespace, decide_eq_false_iff_not]
      omega

/-- The printed integer contains no newline. -/
theorem intDigits_no_newline (t : Int) : '\n' ∉ intDigits t := by
  intro h
  have h10 : ('\n').toNat = 10 := rfl
  rcases intDigits_chars t '\n' h with h1 | h1 <;> omega

/-- `intDigits` is never empty. -/
theorem intDigits_ne_nil (t : Int) : intDigits t ≠ [] := by
  unfold intDigits
  by_cases ht : t < 0
  · simp [ht]
  · rw [if_neg ht]
    exact (natDigits_spec t.toNat).1

/-- Dropping the while-prefix of a list whose head fails the predicate is the
identity. -/
theorem dropWhile_cons_of_neg (p : Char → Bool) (c : Char) (cs : List Char) (h : p c = false) :
    (c :: cs).dropWhile p = c :: cs := by
  simp [List.dropWhile, h]

/-- Trimming a list with no whitespace at all is the identity. -/
theorem rustTrimList_eq_self (cs : List Char) (h : ∀ c ∈ cs, isRustWhitespace c = false) :
    rustTrimList cs = cs := by
  unfold rustTrimList
  have h1 : cs.dropWhile isRustWhitespace = cs := by
    cases cs with
    | nil => rfl
    | cons c t => exact dropWhile_cons_of_neg _ c t (h c (List.mem_cons_self c t))
  rw [h1]
  have h2 : cs.reverse.dropWhile isRustWhitespace = cs.reverse := by
    cases hr : cs.reverse with
    | nil => rfl
    | cons c t =>
      have hcmem : c ∈ cs := by
        have : c ∈ cs.reverse := by rw [hr]; exact List.mem_cons_self c t
        simpa using this
      rw [← hr]
      rw [hr]
      exact dropWhile_cons_of_neg _ c t (h c hcmem)
  rw [h2, List.reverse_reverse]

/-- Trimming the printed integer is the identity. -/
theorem rustTrim_intDigits (t : Int) :
    rustTrim (String.mk (intDigits t)) = String.mk (intDigits t) := by
  show String.mk (rustTrimList (intDigits t)) = String.mk (intDigits t)
  rw [rustTrimList_eq_self (intDigits t) (fun c hc => intDigits_not_ws t c hc)]

/-- Splitting a list that does not contain the separator yields one
fragment. -/
theorem splitOnChar_of_not_mem (sep : Char) (cs : List Char) (h : sep ∉ cs) :
    splitOnChar sep cs = [cs] := by
  induction cs with
  | nil => rfl
  | cons c rest ih =>
    have hrest : sep ∉ rest := fun hm => h (List.mem_cons_of_mem c hm)
    have hc : ¬(c = sep) := fun he => h (he ▸ List.mem_cons_self c rest)
    simp [splitOnChar, ih hrest, hc]

/-- The lines of the released lock-file content are the empty pid line
followed by the printed timestamp. -/
theorem rustLines_release (ds : List Char) (hnl : '\n' ∉ ds) (hne : ds ≠ []) :
    rustLines (String.mk ('\n' :: ds)) = ["", String.mk ds] := by
  have h1 : splitOnChar '\n' ('\n' :: ds) = [[], ds] := by
    simp [splitOnChar, splitOnChar_of_not_mem '\n' ds hnl]
  show (match (splitOnChar '\n' ('\n' :: ds)).reverse with
    | [] => []
    | lastPiece :: revInit =>
      let terminated := (revInit.reverse.map stripCr).map String.mk
      if lastPiece = [] then terminated else terminated ++ [String.mk lastPiece]) =
    ["", String.mk ds]
  rw [h1]
  simp only [List.reverse_cons, List.reverse_nil, List.nil_append, List.cons_append]
  rw [if_neg hne]
  rfl

/-- Parsing the printed `i64` recovers the integer, within the `i64` range. -/
theorem parseI64_intDigits (t : Int) (hlo : -9223372036854775808 ≤ t)
    (hhi : t ≤ 9223372036854775807) :
    parseI64 (String.mk (intDigits t)) = some t := by
  by_cases ht : t < 0
  · have hrepr : intDigits t = '-' :: natDigits t.natAbs := by
      unfold intDigits
      rw [if_pos ht]
    rw [hrepr]
    have hstep : parseI64 (String.mk ('-' :: natDigits t.natAbs)) =
        (match parseDigits (natDigits t.natAbs) with
         | none => none
         | some n => if n ≤ 9223372036854775808 then some (-(n : Int)) else none) := rfl
    rw [hstep, parseDigits_natDigits t.natAbs]
    rw [show (match (some t.natAbs : Option Nat) with
         | none => (none : Option Int)
         | some n => if n ≤ 9223372036854775808 then some (-(n : Int)) else none) =
        if t.natAbs ≤ 9223372036854775808 then some (-(t.natAbs : Int)) else none from rfl]
    rw [if_pos (by omega)]
    congr 1
    omega
  · have hrepr : intDigits t = natDigits t.toNat := by
      unfold intDigits
      rw [if_neg ht]
    obtain ⟨c, cs, hcons⟩ := List.exists_cons_of_ne_nil (natDigits_spec t.toNat).1
    have hc := natDigits_head_digit t.toNat c cs hcons
    rw [hrepr, hcons]
    have hstep : parseI64 (String.mk (c :: cs)) =
        (if c.toNat = 43 then
          match parseDigits cs with
          | none => none
          | some n => if n ≤ 9223372036854775807 then some (n : Int) else none
        else if c.toNat = 45 then
          match parseDigits cs with
          | none => none
          | some n => if n ≤ 9223372036854775808 then some (-(n : Int)) else none
        else
          match parseDigits (c :: cs) with
          | none => none
          | some n => if n ≤ 9223372036854775807 then some (n : Int) else none) := rfl
    rw [hstep, if_neg (by omega), if_neg (by omega), ← hcons, parseDigits_natDigits t.toNat]
    rw [show (match (some t.toNat : Option Nat) with
         | none => (none : Option Int)
         | some n => if n ≤ 9223372036854775807 then some (n : Int) else none) =
        if t.toNat ≤ 9223372036854775807 then some ((t.toNat : Nat) : Int) else none from rfl]
    rw [if_pos (by omega)]
    congr 1
    omega

/-- The `u64 as i64` cast is the identity below `2^63`. -/
theorem u64_as_i64_of_lt (n : Nat) (h : n < 9223372036854775808) :
    u64_as_i64 n = (n : Int) := by
  unfold u64_as_i64
  rw [Nat.mod_eq_of_lt (by omega)]
  rw [if_pos h]

/-- C3 (amended): when `release` succeeds at time `t` the lock file holds an
empty first line and the decimal timestamp `t` as the second line, and — for
a cooldown below `2^63` (so the `u64 as i64` cast is value-preserving) and a
chrono-representable `t` — a later `should_skip` at time `now2` succeeds with
verdict `now2 - t < cooldown`: true strictly inside the cooldown window and
false from `now2 - t = cooldown` on. -/
theorem release_cooldown_semantics (cooldown : Nat) (t now2 : Int) (alive : Nat → Bool)
    (hcool : cooldown < 9223372036854775808) (hlo : chronoMinTs ≤ t) (hhi : t ≤ chronoMaxTs) :
    release true t = .ok (String.mk ('\n' :: intDigits t)) ∧
    rustLines (String.mk ('\n' :: intDigits t)) = ["", intToDecimal t] ∧
    should_skip cooldown alive now2 (some (String.mk ('\n' :: intDigits t))) =
      .ok (decide (now2 - t < (cooldown : Int))) := by
  have hlines := rustLines_release (intDigits t) (intDigits_no_newline t) (intDigits_ne_nil t)
  have hlo64 : -9223372036854775808 ≤ t := by
    have := hlo; unfold chronoMinTs at this; omega
  have hhi64 : t ≤ 9223372036854775807 := by
    have := hhi; unfold chronoMaxTs at this; omega
  refine ⟨rfl, by rw [hlines]; rfl, ?_⟩
  simp only [should_skip]
  rw [hlines]
  show (match parseI64 (rustTrim (String.mk (intDigits t))) with
        | some timestamp =>
          match chronoFromTimestamp timestamp with
          | none => (Except.error "Invalid timestamp in lock file" : Except String Bool)
          | some completion_time =>
            if now2 - completion_time < u64_as_i64 cooldown then Except.ok true
            else Except.ok false
        | none => Except.ok false) = Except.ok (decide (now2 - t < (cooldown : Int)))
  rw [rustTrim_intDigits t, parseI64_intDigits t hlo64 hhi64]
  show (match chronoFromTimestamp t with
        | none => (Except.error "Invalid timestamp in lock file" : Except String Bool)
        | some completion_time =>
          if now2 - completion_time < u64_as_i64 cooldown then Except.ok true
          else Except.ok false) = Except.ok (decide (now2 - t < (cooldown : Int)))
  rw [show chronoFromTimestamp t = some t from by simp [chronoFromTimestamp, hlo, hhi]]
  show (if now2 - t < u64_as_i64 cooldown then (Except.ok true : Except String Bool)
        else Except.ok false) = Except.ok (decide (now2 - t < (cooldown : Int)))
  rw [u64_as_i64_of_lt cooldown hcool]
  exact ite_ok_decide _

/-- Witness for C3: cooldown 5, release at 1000, probe one second later —
still inside the window, so the run is skipped. -/
theorem release_cooldown_semantics_witness :
    should_skip 5 (fun _ => false) 1001 (some (String.mk ('\n' :: intDigits 1000))) =
      .ok true := by
  have h := release_cooldown_semantics 5 1000 1001 (fun _ => false) (by decide) (by decide)
    (by decide)
  rw [h.2.2]
  rfl

/-- C3 counterexample: with `cooldown_seconds = 2^63` the claim's comparison
`now - t < cooldown_seconds` holds immediately after release (`0 - 0 < 2^63`),
yet `should_skip` answers `ok false`, because the code casts the `u64`
cooldown to `i64` and `2^63` wraps to `-2^63`. -/
theorem release_cooldown_counterexample :
    release true 0 = .ok (String.mk ('\n' :: intDigits 0)) ∧
    ((0 : Int) - 0 < ((9223372036854775808 : Nat) : Int)) ∧
    should_skip 9223372036854775808 (fun _ => false) 0
      (some (String.mk ('\n' :: intDigits 0))) = .ok false :=
  ⟨rfl, by decide, rfl⟩
